import Mathlib

/-!
Verification of the bitbucket-issue-migration repository.

This file gives a shallow embedding, in Lean, of the parts of the program
that the specification talks about:

* the label translation and label registry (`src/bbmigrate/github.py`,
  `GitHub.translate_label` / `GitHub.ensure_labels`, and the identical
  `GithubLabels.translate` / `GithubLabels.ensure` in `src/migrate.py`);
* the change-event classifier (`format_change_body` in
  `src/bbmigrate/convert.py`, and its near-duplicate in `src/migrate.py`);
* the gap-filling sequencer (`fill_gaps` in `src/bbmigrate/base.py` and
  `src/migrate.py`);
* the producer/consumer import pipeline (`main` and `push_issues` in
  `src/bbmigrate/main.py`, together with `GitHub.push_github_issue` and
  `GitHub._verify_github_issue_import_finished` in `src/bbmigrate/github.py`).

Python values of type `str | None` are embedded as `Option String`
(`none` is the Python `None`).  Python sets are embedded as `Finset`;
remote HTTP traffic is embedded by passing the scripted responses in as
explicit data.  Identifiers are natural numbers (the data model declares
them positive integers).
-/

namespace BBMigrate

/-! ## Label translation and the label registry

`GitHub.translate_label` (src/bbmigrate/github.py lines 119-125) and
`GithubLabels.translate` (src/migrate.py lines 1113-1119) are textually
identical:

    label = self.label_translations.get(label, label)
    if label in (None, "(none)", "None"):
        return None
    label = label.replace(",", "")[:50]
    return label
-/

/-- Python `label.replace(",", "")`: remove every comma character. -/
def strip_commas (s : String) : String :=
  String.mk (s.data.filter (fun c => c ≠ ','))

/-- Python `label[:50]`: keep the first 50 characters. -/
def take50 (s : String) : String :=
  String.mk (s.data.take 50)

/-- Python `self.label_translations.get(label, label)`: look the label up in
the rename table, defaulting to the label itself; `None` stays `None`. -/
def rename (label_translations : List (String × String)) (label : Option String) :
    Option String :=
  label.map (fun s => ((label_translations.lookup s).getD s))

/-- Embedding of `GitHub.translate_label` / `GithubLabels.translate`. -/
def translate_label (label_translations : List (String × String))
    (label : Option String) : Option String :=
  match rename label_translations label with
  | none => none
  | some s =>
    if s = "(none)" ∨ s = "None" then none
    else some (take50 (strip_commas s))

/-- The set `{self.translate_label(label) for label in labels}.difference([None])`
computed by `ensure_labels`: translate every member and drop the absent
results. -/
def translated_set (label_translations : List (String × String))
    (labels : Finset String) : Finset String :=
  labels.biUnion (fun l => (translate_label label_translations (some l)).toFinset)

/-- Embedding of `GitHub.ensure_labels` (src/bbmigrate/github.py lines
127-134) and `GithubLabels.ensure` (src/migrate.py lines 1121-1127).
`known` is the cache `self.labels`.  The result is the returned set, the
set of labels for which a remote create call is issued (the loop runs over
`labels.difference(self.labels)`, so exactly one create call is made per
member of that set), and the cache after the call. -/
def ensure_labels (label_translations : List (String × String))
    (known : Finset String) (labels : Finset String) :
    Finset String × Finset String × Finset String :=
  let t := translated_set label_translations labels
  let missing := t \ known
  (t, missing, known ∪ missing)

/-! ## The change-event classifier

`format_change_body` in src/bbmigrate/convert.py (lines 210-278) walks the
per-field deltas of one change event and sorts them into five buckets:
`added_labels`, `removed_labels`, `field_changes`, `status_changes` and
`misc_changes`.  The near-duplicate in src/migrate.py (lines 716-774)
differs in three places: its allow-list has no `"attachment"` entry (and
no attachment branch), its reopened-tuple has no empty-string member, and the
closed transition is guarded by `not is_last`.

A change event is embedded as the list of its per-field deltas, in
iteration order: `(field name, old value, new value)`. -/

/-- One classified change event: the five buckets built by
`format_change_body` before rendering. -/
structure Classified where
  added_labels : Finset String
  removed_labels : Finset String
  field_changes : Finset (String × Option String × Option String)
  status_changes : Finset String
  misc_changes : Finset String
deriving DecidableEq

/-- The empty buckets at the start of `format_change_body`. -/
def Classified.empty : Classified := ⟨∅, ∅, ∅, ∅, ∅⟩

/-- The `include_changes` allow-list of src/bbmigrate/convert.py (lines
216-218). -/
def include_changes : List String :=
  ["assignee", "state", "title", "kind", "milestone",
   "component", "priority", "version", "content", "attachment"]

/-- The `include_changes` allow-list of src/migrate.py (lines 720-722):
no `"attachment"` entry. -/
def include_changes_migrate : List String :=
  ["assignee", "state", "title", "kind", "milestone",
   "component", "priority", "version", "content"]

/-- Python truthiness of a translated label (`if old:`): `None` and the
empty string are falsy. -/
def py_truthy : Option String → Bool
  | none => false
  | some s => !(s = "")

/-- The statement `if old_is_label: if old: removed_labels.add(old)` of the
loop body (identical in both implementations). -/
def step_removed (old_is_label : Prop) [Decidable old_is_label]
    (old : Option String) (acc : Classified) : Classified :=
  if old_is_label ∧ py_truthy old then
    { acc with removed_labels := insert (old.getD "") acc.removed_labels }
  else acc

/-- The statement `if new_is_label: if new: added_labels.add(new)` of the
loop body (identical in both implementations). -/
def step_added (new_is_label : Prop) [Decidable new_is_label]
    (new : Option String) (acc : Classified) : Classified :=
  if new_is_label ∧ py_truthy new then
    { acc with added_labels := insert (new.getD "") acc.added_labels }
  else acc

/-- The `state` branch of src/bbmigrate/convert.py (lines 267-274) applied
to the translated old/new values: membership of `new` in
`("", "open", "new", "on hold")` and of `old` in
`("resolved", "duplicate", "wontfix", "closed")` adds `reopened`, the
symmetric test adds `closed`. -/
def step_status (old new : Option String) (acc : Classified) : Classified :=
  let acc3 :=
    if new ∈ [some "", some "open", some "new", some "on hold"] ∧
        old ∈ [some "resolved", some "duplicate", some "wontfix", some "closed"] then
      { acc with status_changes := insert "reopened" acc.status_changes }
    else acc
  if old ∈ [some "", some "open", some "new", some "on hold"] ∧
      new ∈ [some "resolved", some "duplicate", some "wontfix", some "closed"] then
    { acc3 with status_changes := insert "closed" acc3.status_changes }
  else acc3

/-- The `state` branch of src/migrate.py (lines 763-770): the tuples have
no empty-string member and the `closed` transition is further guarded by
`not is_last`. -/
def step_status_migrate (is_last : Bool) (old new : Option String)
    (acc : Classified) : Classified :=
  let acc3 :=
    if new ∈ [some "open", some "new", some "on hold"] ∧
        old ∈ [some "resolved", some "duplicate", some "wontfix", some "closed"] then
      { acc with status_changes := insert "reopened" acc.status_changes }
    else acc
  if ¬is_last ∧ old ∈ [some "open", some "new", some "on hold"] ∧
      new ∈ [some "resolved", some "duplicate", some "wontfix", some "closed"] then
    { acc3 with status_changes := insert "closed" acc3.status_changes }
  else acc3

/-- The final branch
`elif not old_is_label or not new_is_label: field_changes.add(tuple(oldnewchange))`
(identical in both implementations). -/
def step_fields (change_element : String)
    (old_is_label new_is_label : Prop)
    [Decidable old_is_label] [Decidable new_is_label]
    (oldslot newslot : Option String) (acc : Classified) : Classified :=
  if ¬old_is_label ∨ ¬new_is_label then
    { acc with
        field_changes := insert (change_element, oldslot, newslot) acc.field_changes }
  else acc

/-- Processing of one field delta by the loop body of
`format_change_body` in src/bbmigrate/convert.py (lines 225-278),
assembled from the statement embeddings above in source order. -/
def classify_step (states_as_labels : List String)
    (label_translations : List (String × String))
    (acc : Classified) (ce : String × String × String) : Classified :=
  let change_element := ce.1
  let old_raw := ce.2.1
  let new_raw := ce.2.2
  if change_element ∉ include_changes then acc
  else if change_element = "attachment" then
    { acc with
        misc_changes := insert ("attached file " ++ new_raw) acc.misc_changes }
  else
    let new_is_label := change_element ∈ ["priority", "component", "kind", "version"] ∨
      (change_element = "state" ∧ new_raw ∈ states_as_labels)
    let old_is_label := change_element ∈ ["priority", "component", "kind", "version"] ∨
      (change_element = "state" ∧ old_raw ∈ states_as_labels)
    let old := translate_label label_translations (some old_raw)
    let new := translate_label label_translations (some new_raw)
    let oldslot := if old_is_label then none else old
    let newslot := if new_is_label then none else new
    let acc2 := step_added new_is_label new (step_removed old_is_label old acc)
    if change_element = "state" then step_status old new acc2
    else if change_element = "content" then
      { acc2 with misc_changes := insert "edited description" acc2.misc_changes }
    else step_fields change_element old_is_label new_is_label oldslot newslot acc2

/-- Classification of one whole change event by src/bbmigrate/convert.py:
the loop `for change_element in change["changes"]` folded over the
per-field deltas. -/
def classify_change (states_as_labels : List String)
    (label_translations : List (String × String))
    (changes : List (String × String × String)) : Classified :=
  changes.foldl (classify_step states_as_labels label_translations) Classified.empty

/-- Processing of one field delta by the loop body of
`format_change_body` in src/migrate.py (lines 729-774), which takes the
extra `is_last` argument. -/
def classify_step_migrate (is_last : Bool) (states_as_labels : List String)
    (label_translations : List (String × String))
    (acc : Classified) (ce : String × String × String) : Classified :=
  let change_element := ce.1
  let old_raw := ce.2.1
  let new_raw := ce.2.2
  if change_element ∉ include_changes_migrate then acc
  else
    let new_is_label := change_element ∈ ["priority", "component", "kind", "version"] ∨
      (change_element = "state" ∧ new_raw ∈ states_as_labels)
    let old_is_label := change_element ∈ ["priority", "component", "kind", "version"] ∨
      (change_element = "state" ∧ old_raw ∈ states_as_labels)
    let old := translate_label label_translations (some old_raw)
    let new := translate_label label_translations (some new_raw)
    let oldslot := if old_is_label then none else old
    let newslot := if new_is_label then none else new
    let acc2 := step_added new_is_label new (step_removed old_is_label old acc)
    if change_element = "state" then step_status_migrate is_last old new acc2
    else if change_element = "content" then
      { acc2 with misc_changes := insert "edited description" acc2.misc_changes }
    else step_fields change_element old_is_label new_is_label oldslot newslot acc2

/-- Classification of one whole change event by src/migrate.py. -/
def classify_change_migrate (is_last : Bool) (states_as_labels : List String)
    (label_translations : List (String × String))
    (changes : List (String × String × String)) : Classified :=
  changes.foldl (classify_step_migrate is_last states_as_labels label_translations)
    Classified.empty

/-! ## The gap-filling sequencer

`fill_gaps` (src/bbmigrate/base.py lines 48-77 and, identically,
src/migrate.py lines 384-412):

    current_id = offset
    for issue in issues_iterator:
        issue_id = issue["id"]
        for dummy_id in range(current_id + 1, issue_id):
            yield DummyIssue(dummy_id)
        current_id = issue_id
        yield issue

A real issue is a dict; only its id is inspected, so it is embedded as an
id plus an opaque payload.  `DummyIssue(num)` is a dict holding only the
id, embedded as the `dummy` constructor. -/

/-- A real source issue: the id that `fill_gaps` reads, plus the rest of
the dict as an opaque payload. -/
structure PyIssue where
  id : Nat
  payload : Nat
deriving DecidableEq

/-- An element of the sequence produced by `fill_gaps`: either a real
issue passed through unchanged, or a `DummyIssue` carrying only its id. -/
inductive FillItem where
  | real (issue : PyIssue)
  | dummy (id : Nat)
deriving DecidableEq

/-- The id carried by a produced item (`issue["id"]`). -/
def item_id : FillItem → Nat
  | .real issue => issue.id
  | .dummy n => n

/-- Python `range(a, b)`: the integers `a, a+1, ..., b-1` (empty when
`b <= a`). -/
def py_range (a b : Nat) : List Nat :=
  List.range' a (b - a)

/-- Embedding of `fill_gaps`.  The second argument is `current_id`,
initially the offset. -/
def fill_gaps : List PyIssue → Nat → List FillItem
  | [], _ => []
  | issue :: rest, current_id =>
    (py_range (current_id + 1) issue.id).map FillItem.dummy
      ++ FillItem.real issue :: fill_gaps rest issue.id

/-! ## The import pipeline

The consumer side lives in `GitHub.push_github_issue` and
`GitHub._verify_github_issue_import_finished` (src/bbmigrate/github.py
lines 170-271) and in `push_issues` (src/bbmigrate/main.py lines 223-243);
the producer side is the loop of `main` (src/bbmigrate/main.py lines
178-220).  The remote destination is embedded by scripting its responses:
each queued task carries the HTTP status code its import POST will get and
the list of status-check responses the polling loop will see, in order. -/

/-- One response of the destination status-check endpoint:
`respo.status_code`, `respo.json()["status"]` and
`respo.json()["issue_url"]`. -/
structure StatusResp where
  status_code : Nat
  status : String
  issue_url : String
deriving DecidableEq

/-- The distinct exceptions `_verify_github_issue_import_finished` can
raise. -/
inductive VerifyError where
  | httpStatus (code : Nat)
  | desync (gh_issue_id verify_issue_id : Nat)
  | badIssueUrl (url : String)
  | importFailed
  | unexpectedStatus (status : String)
deriving DecidableEq

/-- Outcome of `_verify_github_issue_import_finished`: it returned
normally, raised, or ran out of scripted responses while still polling. -/
inductive VerifyOutcome where
  | returned
  | raised (e : VerifyError)
  | stuck
deriving DecidableEq

/-- Splitting a character list on `/`, like Python `url.split("/")`. -/
def split_slash : List Char → List (List Char)
  | [] => [[]]
  | c :: rest =>
    match split_slash rest with
    | [] => [[]]
    | seg :: segs => if c = '/' then [] :: seg :: segs else (c :: seg) :: segs

/-- Python `int(s)` on the all-digit strings produced by the API: parses a
nonempty digit sequence, and is absent (a raised ValueError) otherwise. -/
def parse_int (cs : List Char) : Option Nat :=
  if cs = [] then none
  else if cs.all (fun c => c.isDigit) then
    some (cs.foldl (fun n c => n * 10 + (c.toNat - '0'.toNat)) 0)
  else none

/-- Python `int(gh_issue_url.split("/")[-1])` from
`_verify_github_issue_import_finished`. -/
def int_of_last_segment (url : String) : Option Nat :=
  parse_int ((split_slash url.data).getLastD [])

/-- Embedding of `GitHub._verify_github_issue_import_finished`
(src/bbmigrate/github.py lines 218-271), consuming the scripted
status-check responses in order.  A 403 or 404 response makes the
function print and return; any other non-200 response raises; a
`pending` status polls again; on `imported` the id parsed from
`issue_url` is compared with `verify_issue_id`. -/
def verify_import_finished (verify_issue_id : Nat) :
    List StatusResp → VerifyOutcome
  | [] => .stuck
  | r :: rest =>
    if r.status_code = 403 ∨ r.status_code = 404 then .returned
    else if r.status_code ≠ 200 then .raised (.httpStatus r.status_code)
    else if r.status = "pending" then verify_import_finished verify_issue_id rest
    else if r.status = "imported" then
      match int_of_last_segment r.issue_url with
      | none => .raised (.badIssueUrl r.issue_url)
      | some gh_issue_id =>
        if gh_issue_id ≠ verify_issue_id then
          .raised (.desync gh_issue_id verify_issue_id)
        else .returned
    else if r.status = "failed" then .raised .importFailed
    else .raised (.unexpectedStatus r.status)

/-- One task on the work queue, as enqueued by the producer
(`work_queue.put((issue["id"], gh_issue, gh_comments))`), together with
the scripted behaviour of the destination for this task: the HTTP status
of the import POST and the scripted status-check responses. -/
structure TaskScript where
  issue_id : Nat
  push_status : Nat
  status_responses : List StatusResp
deriving DecidableEq

/-- The distinct exceptions `push_github_issue` can propagate. -/
inductive PushError where
  | validation
  | badPushStatus (code : Nat)
  | verify (e : VerifyError)
  | verifyStuck
deriving DecidableEq

/-- Embedding of `GitHub.push_github_issue` (src/bbmigrate/github.py lines
170-216): dry runs push nothing; a 422 POST response raises the validation
error; any other non-202 response raises; otherwise the import status is
polled via `_verify_github_issue_import_finished`. -/
def push_github_issue (dry_run : Bool) (t : TaskScript) : Except PushError Unit :=
  if dry_run then .ok ()
  else if t.push_status = 422 then .error .validation
  else if t.push_status ≠ 202 then .error (.badPushStatus t.push_status)
  else
    match verify_import_finished t.issue_id t.status_responses with
    | .returned => .ok ()
    | .raised e => .error (.verify e)
    | .stuck => .error .verifyStuck

/-- The observable outcome of a consumer run: the ids of tasks that
completed the push-and-verify step without an exception (imported, in
order), the ids for which a destination push was performed, the final
state of the shared abort event, and the exception the consumer re-raised,
if any. -/
structure ConsumerRun where
  imported : List Nat
  pushed : List Nat
  abort : Bool
  error : Option PushError
deriving DecidableEq

/-- Embedding of the consumer loop `push_issues` (src/bbmigrate/main.py
lines 223-243) run over the finite sequence of tasks that ever arrive on
the queue.  `abort_ext` models the state of the shared abort event as
observed at the top of each loop iteration (iterations are counted by the
`Nat` argument); the loop exits when it observes abort, and on any
exception from `push_github_issue` it sets abort, re-raises and stops. -/
def push_issues (dry_run : Bool) (abort_ext : Nat → Bool) :
    Nat → List TaskScript → ConsumerRun
  | i, [] => ⟨[], [], abort_ext i, none⟩
  | i, t :: rest =>
    if abort_ext i then ⟨[], [], true, none⟩
    else
      match push_github_issue dry_run t with
      | .ok _ =>
        let r := push_issues dry_run abort_ext (i + 1) rest
        ⟨t.issue_id :: r.imported, t.issue_id :: r.pushed, r.abort, r.error⟩
      | .error e => ⟨[], [t.issue_id], true, some e⟩

/-! ## The producer loop

The producer (`main`, src/bbmigrate/main.py lines 178-220) checks the
abort event at the top of each iteration, converts the issue, and enqueues
`(issue["id"], gh_issue, gh_comments)`.  When `--mention-changes` is
given and the issue has change events, the conversion calls
`convert.convert_change(c, options, config, gh, c is last_change)` with
five positional arguments (lines 211-212), while `convert_change` in
src/bbmigrate/convert.py line 138 is declared as
`def convert_change(change, options, config, gh)` with four parameters;
in Python such a call raises `TypeError` the moment it is made.  The
producer is embedded with the argument/parameter counts made explicit. -/

/-- Number of parameters of `convert_change` as defined in
src/bbmigrate/convert.py line 138: `(change, options, config, gh)`. -/
def convert_change_param_count : Nat := 4

/-- Number of positional arguments passed to `convert.convert_change` by
`main` (src/bbmigrate/main.py lines 211-212):
`(c, options, config, gh, c is last_change)`. -/
def main_convert_change_arg_count : Nat := 5

/-- A source issue as seen by the producer loop: its id and its list of
change events (each change event is its list of per-field deltas). -/
structure SrcIssue where
  id : Nat
  changes : List (List (String × String × String))
deriving DecidableEq

/-- How the producer loop terminated. -/
inductive ProdExit where
  | normal
  | raisedTypeError
deriving DecidableEq

/-- Embedding of the producer loop of `main` (src/bbmigrate/main.py lines
178-220), starting at loop index `i`: at each iteration the abort event is
checked first (`if abort_event.is_set(): break`); with `--mention-changes`
and a nonempty change list the call to `convert.convert_change` is made
with `main_convert_change_arg_count` positional arguments against a
function of `convert_change_param_count` parameters, raising `TypeError`
when the counts differ, before anything is enqueued for the issue;
otherwise `(issue["id"], ...)` is enqueued and the loop continues.  The
result is the list of enqueued ids and how the loop ended. -/
def producer_from (abort_at : Nat → Bool) (mention_changes : Bool) :
    Nat → List SrcIssue → List Nat × ProdExit
  | _, [] => ([], .normal)
  | i, issue :: rest =>
    if abort_at i then ([], .normal)
    else if mention_changes ∧ issue.changes ≠ [] ∧
        main_convert_change_arg_count ≠ convert_change_param_count then
      ([], .raisedTypeError)
    else
      let r := producer_from abort_at mention_changes (i + 1) rest
      (issue.id :: r.1, r.2)

/-- Equality of `push_github_issue` outcomes is decidable (used to evaluate
the embedding on concrete scripted tasks). -/
instance {e a : Type _} [DecidableEq e] [DecidableEq a] : DecidableEq (Except e a) :=
  fun x y =>
  match x, y with
  | .ok u, .ok v =>
    if h : u = v then isTrue (h ▸ rfl)
    else isFalse (fun hc => h (by injection hc))
  | .error u, .error v =>
    if h : u = v then isTrue (h ▸ rfl)
    else isFalse (fun hc => h (by injection hc))
  | .ok _, .error _ => isFalse (fun hc => by injection hc)
  | .error _, .ok _ => isFalse (fun hc => by injection hc)

/-! ## Helper lemmas about the classifier stages -/

lemma step_removed_field (p : Prop) [Decidable p] (o : Option String) (acc : Classified) :
    (step_removed p o acc).field_changes = acc.field_changes := by
  unfold step_removed; split <;> rfl

lemma step_removed_status (p : Prop) [Decidable p] (o : Option String) (acc : Classified) :
    (step_removed p o acc).status_changes = acc.status_changes := by
  unfold step_removed; split <;> rfl

lemma step_removed_misc (p : Prop) [Decidable p] (o : Option String) (acc : Classified) :
    (step_removed p o acc).misc_changes = acc.misc_changes := by
  unfold step_removed; split <;> rfl

lemma step_added_field (p : Prop) [Decidable p] (o : Option String) (acc : Classified) :
    (step_added p o acc).field_changes = acc.field_changes := by
  unfold step_added; split <;> rfl

lemma step_added_status (p : Prop) [Decidable p] (o : Option String) (acc : Classified) :
    (step_added p o acc).status_changes = acc.status_changes := by
  unfold step_added; split <;> rfl

lemma step_added_misc (p : Prop) [Decidable p] (o : Option String) (acc : Classified) :
    (step_added p o acc).misc_changes = acc.misc_changes := by
  unfold step_added; split <;> rfl

lemma step_status_field (o n : Option String) (acc : Classified) :
    (step_status o n acc).field_changes = acc.field_changes := by
  unfold step_status; split <;> split <;> rfl

lemma step_status_misc (o n : Option String) (acc : Classified) :
    (step_status o n acc).misc_changes = acc.misc_changes := by
  unfold step_status; split <;> split <;> rfl

lemma step_status_migrate_field (b : Bool) (o n : Option String) (acc : Classified) :
    (step_status_migrate b o n acc).field_changes = acc.field_changes := by
  unfold step_status_migrate; split <;> split <;> rfl

lemma step_fields_misc (elem : String) (p q : Prop) [Decidable p] [Decidable q]
    (a b : Option String) (acc : Classified) :
    (step_fields elem p q a b acc).misc_changes = acc.misc_changes := by
  unfold step_fields; split <;> rfl

lemma step_fields_status (elem : String) (p q : Prop) [Decidable p] [Decidable q]
    (a b : Option String) (acc : Classified) :
    (step_fields elem p q a b acc).status_changes = acc.status_changes := by
  unfold step_fields; split <;> rfl

/-- Every field delta recorded by the final branch is keyed by the field
currently being processed. -/
lemma step_fields_mem (elem : String) (p q : Prop) [Decidable p] [Decidable q]
    (a b : Option String) (acc : Classified) :
    ∀ e ∈ (step_fields elem p q a b acc).field_changes,
      e ∈ acc.field_changes ∨ e.1 = elem := by
  unfold step_fields
  split <;> intro e he
  · simp only [Finset.mem_insert] at he
    rcases he with rfl | he
    · exact Or.inr rfl
    · exact Or.inl he
  · exact Or.inl he

/-- The two status tests of the bbmigrate `state` branch, as an explicit
formula for the updated `status_changes` bucket. -/
lemma step_status_statuses (o n : Option String) (acc : Classified) :
    (step_status o n acc).status_changes =
      (if o ∈ [some "", some "open", some "new", some "on hold"] ∧
          n ∈ [some "resolved", some "duplicate", some "wontfix", some "closed"] then
        insert "closed" else id)
      ((if n ∈ [some "", some "open", some "new", some "on hold"] ∧
          o ∈ [some "resolved", some "duplicate", some "wontfix", some "closed"] then
        insert "reopened" else id) acc.status_changes) := by
  unfold step_status
  split <;> split <;> rfl

/-- The two status tests of the migrate.py `state` branch. -/
lemma step_status_migrate_statuses (b : Bool) (o n : Option String) (acc : Classified) :
    (step_status_migrate b o n acc).status_changes =
      (if ¬b ∧ o ∈ [some "open", some "new", some "on hold"] ∧
          n ∈ [some "resolved", some "duplicate", some "wontfix", some "closed"] then
        insert "closed" else id)
      ((if n ∈ [some "open", some "new", some "on hold"] ∧
          o ∈ [some "resolved", some "duplicate", some "wontfix", some "closed"] then
        insert "reopened" else id) acc.status_changes) := by
  unfold step_status_migrate
  split <;> split <;> rfl

/-- One classifier iteration on a `state` field delta: the allow-list and
attachment tests fall through and the `state` branch runs on the
translated values. -/
lemma classify_step_state_eq (sal : List String) (tr : List (String × String))
    (acc : Classified) (o n : String) :
    classify_step sal tr acc ("state", o, n) =
      step_status (translate_label tr (some o)) (translate_label tr (some n))
        (step_added (n ∈ sal) (translate_label tr (some n))
          (step_removed (o ∈ sal) (translate_label tr (some o)) acc)) := by
  simp [classify_step, include_changes]

/-- One migrate.py classifier iteration on a `state` field delta. -/
lemma classify_step_migrate_state_eq (b : Bool) (sal : List String)
    (tr : List (String × String)) (acc : Classified) (o n : String) :
    classify_step_migrate b sal tr acc ("state", o, n) =
      step_status_migrate b (translate_label tr (some o)) (translate_label tr (some n))
        (step_added (n ∈ sal) (translate_label tr (some n))
          (step_removed (o ∈ sal) (translate_label tr (some o)) acc)) := by
  simp [classify_step_migrate, include_changes_migrate]

/-- One classifier iteration on an `attachment` field delta short-circuits
to the misc bucket. -/
lemma classify_step_attachment_eq (sal : List String) (tr : List (String × String))
    (acc : Classified) (o n : String) :
    classify_step sal tr acc ("attachment", o, n) =
      { acc with misc_changes := insert ("attached file " ++ n) acc.misc_changes } := by
  simp [classify_step, include_changes]

/-- No classifier iteration ever records a field delta keyed `state`. -/
lemma classify_step_field_state_free (sal : List String) (tr : List (String × String))
    (acc : Classified) (ce : String × String × String)
    (h : ∀ e ∈ acc.field_changes, e.1 ≠ "state") :
    ∀ e ∈ (classify_step sal tr acc ce).field_changes, e.1 ≠ "state" := by
  obtain ⟨elem, oldr, newr⟩ := ce
  simp only [classify_step]
  split
  · exact h
  split
  · exact h
  split
  · intro e he
    rw [step_status_field, step_added_field, step_removed_field] at he
    exact h e he
  next hst =>
  split
  · intro e he
    dsimp only at he
    rw [step_added_field, step_removed_field] at he
    exact h e he
  · intro e he
    rcases step_fields_mem elem _ _ _ _ _ e he with hmem | heq
    · rw [step_added_field, step_removed_field] at hmem
      exact h e hmem
    · rw [heq]; exact hst

/-- A classifier iteration never removes anything from the misc bucket. -/
lemma classify_step_misc_mono (sal : List String) (tr : List (String × String))
    (acc : Classified) (ce : String × String × String) :
    acc.misc_changes ⊆ (classify_step sal tr acc ce).misc_changes := by
  obtain ⟨elem, oldr, newr⟩ := ce
  simp only [classify_step]
  split
  · exact fun x hx => hx
  split
  · exact Finset.subset_insert _ _
  split
  · rw [step_status_misc, step_added_misc, step_removed_misc]
  split
  · intro x hx
    refine Finset.mem_insert_of_mem ?_
    rw [step_added_misc, step_removed_misc]
    exact hx
  · rw [step_fields_misc, step_added_misc, step_removed_misc]

lemma classify_fold_field_state_free (sal : List String) (tr : List (String × String)) :
    ∀ (l : List (String × String × String)) (acc : Classified),
      (∀ e ∈ acc.field_changes, e.1 ≠ "state") →
      ∀ e ∈ (l.foldl (classify_step sal tr) acc).field_changes, e.1 ≠ "state"
  | [], _, h => h
  | ce :: l, acc, h =>
    classify_fold_field_state_free sal tr l _ (classify_step_field_state_free sal tr acc ce h)

lemma classify_fold_misc_mono (sal : List String) (tr : List (String × String)) :
    ∀ (l : List (String × String × String)) (acc : Classified),
      acc.misc_changes ⊆ (l.foldl (classify_step sal tr) acc).misc_changes
  | [], _ => fun _ hx => hx
  | ce :: l, acc => fun _ hx =>
    classify_fold_misc_mono sal tr l _ (classify_step_misc_mono sal tr acc ce hx)

/-! ## Helper lemmas about the pipeline and the sequencer -/

/-- Running the consumer over a prefix of tasks that all push and verify
without an exception processes them in order and continues with the rest. -/
lemma push_issues_ok_append (pre : List TaskScript) :
    ∀ (rest : List TaskScript) (i : Nat),
      (∀ t ∈ pre, push_github_issue false t = Except.ok ()) →
      push_issues false (fun _ => false) i (pre ++ rest) =
        ⟨pre.map TaskScript.issue_id ++
            (push_issues false (fun _ => false) (i + pre.length) rest).imported,
          pre.map TaskScript.issue_id ++
            (push_issues false (fun _ => false) (i + pre.length) rest).pushed,
          (push_issues false (fun _ => false) (i + pre.length) rest).abort,
          (push_issues false (fun _ => false) (i + pre.length) rest).error⟩ := by
  induction pre with
  | nil => intro rest i _; simp
  | cons t pre ih =>
    intro rest i h
    have ht : push_github_issue false t = Except.ok () := h t (by simp)
    simp only [List.cons_append, push_issues, ht, List.append_eq, Bool.false_eq_true,
      if_false]
    rw [ih rest (i + 1) (fun u hu => h u (by simp [hu]))]
    have harith : i + 1 + pre.length = i + (t :: pre).length := by
      simp [List.length_cons]; omega
    rw [harith]
    simp

/-- A producer iteration that observes abort stops at once, enqueuing
nothing and raising nothing. -/
lemma producer_from_stop (abort_at : Nat → Bool) (mc : Bool) (i : Nat)
    (h : abort_at i = true) :
    ∀ issues, producer_from abort_at mc i issues = ([], .normal)
  | [] => rfl
  | issue :: rest => by simp [producer_from, h]

/-- A consumer iteration that observes abort performs no push and raises
nothing. -/
lemma push_issues_stop (dry : Bool) (abort_at : Nat → Bool) (i : Nat)
    (h : abort_at i = true) :
    ∀ tasks, (push_issues dry abort_at i tasks).pushed = [] ∧
      (push_issues dry abort_at i tasks).error = none
  | [] => by simp [push_issues]
  | t :: tasks => by simp [push_issues, h]

/-- With a monotone abort schedule set from step `k` on, the producer
enqueues at most `k - i` further issues from step `i` on. -/
lemma producer_from_len (abort_at : Nat → Bool)
    (mono : ∀ i j : Nat, i ≤ j → abort_at i = true → abort_at j = true)
    (k : Nat) (hk : abort_at k = true) (mc : Bool) :
    ∀ (issues : List SrcIssue) (i : Nat),
      (producer_from abort_at mc i issues).1.length ≤ k - i := by
  intro issues
  induction issues with
  | nil => intro i; simp [producer_from]
  | cons issue rest ih =>
    intro i
    by_cases h : abort_at i = true
    · simp [producer_from, h]
    · have hik : i < k := by
        by_contra hc
        exact h (mono k i (by omega) hk)
      by_cases h2 : (mc = true) ∧ issue.changes ≠ [] ∧
          main_convert_change_arg_count ≠ convert_change_param_count
      · simp [producer_from, h, h2]
      · simp only [producer_from, h, if_false, h2, Bool.false_eq_true, List.length_cons]
        have := ih (i + 1)
        omega

/-- With a monotone abort schedule set from step `k` on, the consumer
performs at most `k - i` further pushes from step `i` on. -/
lemma push_issues_len (dry : Bool) (abort_at : Nat → Bool)
    (mono : ∀ i j : Nat, i ≤ j → abort_at i = true → abort_at j = true)
    (k : Nat) (hk : abort_at k = true) :
    ∀ (tasks : List TaskScript) (i : Nat),
      (push_issues dry abort_at i tasks).pushed.length ≤ k - i := by
  intro tasks
  induction tasks with
  | nil => intro i; simp [push_issues]
  | cons t rest ih =>
    intro i
    by_cases h : abort_at i = true
    · simp [push_issues, h]
    · have hik : i < k := by
        by_contra hc
        exact h (mono k i (by omega) hk)
      cases hp : push_github_issue dry t with
      | ok u =>
        simp only [push_issues, h, if_false, hp, Bool.false_eq_true, List.length_cons]
        have := ih (i + 1)
        omega
      | error e =>
        simp only [push_issues, h, if_false, hp, Bool.false_eq_true, List.length_singleton]
        omega

/-- Membership in the embedding of a Python `range`. -/
lemma mem_py_range {n a b : Nat} : n ∈ py_range a b ↔ a ≤ n ∧ n < b := by
  simp only [py_range, List.mem_range']
  constructor
  · rintro ⟨i, hi, rfl⟩
    omega
  · intro ⟨h1, h2⟩
    exact ⟨n - a, by omega, by omega⟩

/-- Ids produced by `fill_gaps` on a strictly ascending input whose ids all
exceed the offset: exactly the integers from `offset + 1` up to the last
(hence largest) input id. -/
lemma fill_gaps_ids (issues : List PyIssue) :
    ∀ (offset : Nat),
      issues.Pairwise (fun a b => a.id < b.id) →
      (∀ i ∈ issues, offset < i.id) →
      (fill_gaps issues offset).map item_id =
        (issues.getLast?).elim [] (fun last => List.range' (offset + 1) (last.id - offset)) := by
  induction issues with
  | nil => intro offset _ _; simp [fill_gaps]
  | cons issue rest ih =>
    intro offset hasc hoff
    rw [List.pairwise_cons] at hasc
    obtain ⟨hlt, hasc'⟩ := hasc
    have hoi : offset < issue.id := hoff issue (List.mem_cons_self issue rest)
    have hcomp : (item_id ∘ FillItem.dummy) = id := rfl
    cases rest with
    | nil =>
      simp only [fill_gaps, List.map_append, List.map_map, List.map_cons, List.map_nil,
        List.getLast?_singleton, Option.elim, item_id, py_range, hcomp, List.map_id]
      have hn : issue.id - offset = (issue.id - (offset + 1)) + 1 := by omega
      rw [hn, List.range'_1_concat]
      have he : offset + 1 + (issue.id - (offset + 1)) = issue.id := by omega
      rw [he]
    | cons j rest' =>
      have hlast : ∃ last, (j :: rest').getLast? = some last := by
        cases h : (j :: rest').getLast? with
        | none => exact absurd h (by simp)
        | some a => exact ⟨a, rfl⟩
      obtain ⟨last, hl⟩ := hlast
      have hmem : last ∈ j :: rest' := List.mem_of_getLast?_eq_some hl
      have hil : issue.id < last.id := hlt last hmem
      have ihr := ih issue.id hasc' hlt
      rw [hl] at ihr
      simp only [Option.elim] at ihr
      rw [show fill_gaps (issue :: j :: rest') offset =
            (py_range (offset + 1) issue.id).map FillItem.dummy
              ++ FillItem.real issue :: fill_gaps (j :: rest') issue.id from rfl]
      simp only [List.map_append, List.map_map, List.map_cons, hcomp, List.map_id,
        item_id, py_range, List.getLast?_cons_cons, hl, Option.elim]
      rw [ihr]
      have hstep : (issue.id :: List.range' (issue.id + 1) (last.id - issue.id)) =
          List.range' issue.id (last.id - issue.id + 1) := by
        rw [List.range'_succ]
      rw [hstep]
      have he : issue.id = offset + 1 + (issue.id - (offset + 1)) := by omega
      nth_rewrite 2 [he]
      rw [List.range'_append_1]
      have hn : last.id - issue.id + 1 + (issue.id - (offset + 1)) = last.id - offset := by
        omega
      rw [hn]

/-- Every real input issue is passed through by `fill_gaps` unchanged. -/
lemma fill_gaps_real_mem (issues : List PyIssue) :
    ∀ (offset : Nat), ∀ i ∈ issues, FillItem.real i ∈ fill_gaps issues offset := by
  induction issues with
  | nil => intro offset i hi; exact absurd hi (List.not_mem_nil i)
  | cons issue rest ih =>
    intro offset i hi
    rcases List.mem_cons.mp hi with rfl | hi'
    · exact List.mem_append_right _ (List.mem_cons_self _ _)
    · exact List.mem_append_right _ (List.mem_cons_of_mem _ (ih issue.id i hi'))

/-- Every item produced by `fill_gaps` is either a real input issue or a
placeholder whose id is not an input id. -/
lemma fill_gaps_items (issues : List PyIssue) :
    ∀ (offset : Nat),
      issues.Pairwise (fun a b => a.id < b.id) →
      (∀ i ∈ issues, offset < i.id) →
      ∀ it ∈ fill_gaps issues offset,
        (∃ i ∈ issues, it = FillItem.real i) ∨
        (∃ n, it = FillItem.dummy n ∧ ∀ i ∈ issues, i.id ≠ n) := by
  induction issues with
  | nil => intro offset _ _ it hit; exact absurd hit (List.not_mem_nil it)
  | cons issue rest ih =>
    intro offset hasc hoff it hit
    rw [List.pairwise_cons] at hasc
    obtain ⟨hlt, hasc'⟩ := hasc
    rcases List.mem_append.mp hit with hgap | hrest
    · obtain ⟨n, hn, rfl⟩ := List.mem_map.mp hgap
      have hb := mem_py_range.mp hn
      refine Or.inr ⟨n, rfl, ?_⟩
      intro i hi
      rcases List.mem_cons.mp hi with rfl | hi'
      · omega
      · have := hlt i hi'
        omega
    · rcases List.mem_cons.mp hrest with rfl | htail
      · exact Or.inl ⟨issue, List.mem_cons_self _ _, rfl⟩
      · rcases ih issue.id hasc' hlt it htail with ⟨i, hi, rfl⟩ | ⟨n, rfl, hn⟩
        · exact Or.inl ⟨i, List.mem_cons_of_mem _ hi, rfl⟩
        · have hid : issue.id < n := by
            have hmm : n ∈ (fill_gaps rest issue.id).map item_id :=
              List.mem_map.mpr ⟨FillItem.dummy n, htail, rfl⟩
            rw [fill_gaps_ids rest issue.id hasc' hlt] at hmm
            cases hrest_last : rest.getLast? with
            | none => rw [hrest_last] at hmm; exact absurd hmm (List.not_mem_nil n)
            | some last =>
              rw [hrest_last] at hmm
              simp only [Option.elim] at hmm
              have := (List.mem_range'_1.mp hmm).1
              omega
          refine Or.inr ⟨n, rfl, ?_⟩
          intro i hi
          rcases List.mem_cons.mp hi with rfl | hi'
          · omega
          · exact hn i hi'

/-! ## The claims -/

/-- Claim C1: when, after a successful push (HTTP 202), the destination
reports status `imported` with an issue id different from the expected one,
the consumer raises the desynchronization error, sets the shared abort
signal, processes none of the remaining queued tasks, and the previously
verified imports stay imported (no rollback). -/
theorem desync_aborts_run (pre post : List TaskScript) (expected gid : Nat) (url : String)
    (hpre : ∀ t ∈ pre, push_github_issue false t = Except.ok ())
    (hurl : int_of_last_segment url = some gid) (hne : gid ≠ expected) :
    push_issues false (fun _ => false) 0
        (pre ++ (⟨expected, 202, [⟨200, "imported", url⟩]⟩ : TaskScript) :: post) =
      ⟨pre.map TaskScript.issue_id, pre.map TaskScript.issue_id ++ [expected], true,
        some (.verify (.desync gid expected))⟩ := by
  have hbad : push_github_issue false ⟨expected, 202, [⟨200, "imported", url⟩]⟩ =
      Except.error (.verify (.desync gid expected)) := by
    simp [push_github_issue, verify_import_finished, hurl, hne]
  rw [push_issues_ok_append pre _ 0 hpre]
  simp [push_issues, hbad]

/-- Witness for C1: a run of three queued tasks in which the second task
(expected id 42) is reported imported as id 43. -/
theorem desync_aborts_run_w :
    push_issues false (fun _ => false) 0
        [⟨41, 202, [⟨200, "imported", "i/41"⟩]⟩,
         ⟨42, 202, [⟨200, "imported", "i/43"⟩]⟩,
         ⟨43, 202, [⟨200, "imported", "i/43"⟩]⟩] =
      ⟨[41], [41, 42], true, some (.verify (.desync 43 42))⟩ := by
  have h := desync_aborts_run [⟨41, 202, [⟨200, "imported", "i/41"⟩]⟩]
    [⟨43, 202, [⟨200, "imported", "i/43"⟩]⟩] 42 43 "i/43" (by decide) (by decide) (by decide)
  simpa using h

/-- Claim C2 (amended: the starting offset must lie strictly below every
input id): on a strictly ascending input whose ids all exceed the offset,
`fill_gaps` produces exactly the ids `offset + 1 .. max input id`, passes
every real issue through unchanged, produces only real input issues or
placeholders whose id is not an input id, and maps empty input to empty
output. -/
theorem fill_gaps_dense (issues : List PyIssue) (offset : Nat)
    (hasc : issues.Pairwise fun a b => a.id < b.id)
    (hoff : ∀ i ∈ issues, offset < i.id) :
    ((fill_gaps issues offset).map item_id =
      (issues.getLast?).elim [] (fun last => List.range' (offset + 1) (last.id - offset))) ∧
    (∀ i ∈ issues, FillItem.real i ∈ fill_gaps issues offset) ∧
    (∀ it ∈ fill_gaps issues offset,
      (∃ i ∈ issues, it = FillItem.real i) ∨
      (∃ n, it = FillItem.dummy n ∧ ∀ i ∈ issues, i.id ≠ n)) ∧
    fill_gaps [] offset = [] :=
  ⟨fill_gaps_ids issues offset hasc hoff, fill_gaps_real_mem issues offset,
    fill_gaps_items issues offset hasc hoff, rfl⟩

/-- Counterexample for C2 as stated: with input ids `[1]` and offset 5 the
input is strictly ascending, yet the produced ids `[1]` are not the dense
range `offset + 1 .. max id` (which is empty), so the claim fails for a
starting offset that is not below every input id. -/
theorem fill_gaps_offset_counterexample :
    ([⟨1, 0⟩] : List PyIssue).Pairwise (fun a b => a.id < b.id) ∧
    (fill_gaps [⟨1, 0⟩] 5).map item_id ≠
      (([⟨1, 0⟩] : List PyIssue).getLast?).elim []
        (fun last => List.range' (5 + 1) (last.id - 5)) := by decide

/-- Witness for C2: the docstring example, ids `[2, 4, 7]` at offset 0. -/
theorem fill_gaps_dense_w :
    (fill_gaps [⟨2, 10⟩, ⟨4, 11⟩, ⟨7, 12⟩] 0).map item_id = [1, 2, 3, 4, 5, 6, 7] ∧
    FillItem.real ⟨4, 11⟩ ∈ fill_gaps [⟨2, 10⟩, ⟨4, 11⟩, ⟨7, 12⟩] 0 := by
  have h := fill_gaps_dense [⟨2, 10⟩, ⟨4, 11⟩, ⟨7, 12⟩] 0 (by decide) (by decide)
  exact ⟨h.1.trans (by decide), h.2.1 ⟨4, 11⟩ (by decide)⟩

/-- Claim C3: for any label set, the first `ensure` call issues exactly one
create call per missing translated name (the create calls are the set
difference of the translated set and the cache, one call per member); an
immediately repeated call with the same input issues no create calls,
returns the same translated sentinel-filtered set, and leaves the cache
unchanged. -/
theorem ensure_labels_idempotent (tr : List (String × String)) (known labels : Finset String) :
    (ensure_labels tr known labels).2.1 = translated_set tr labels \ known ∧
    (ensure_labels tr ((ensure_labels tr known labels).2.2) labels).2.1 = ∅ ∧
    (ensure_labels tr ((ensure_labels tr known labels).2.2) labels).1 =
      (ensure_labels tr known labels).1 ∧
    (ensure_labels tr ((ensure_labels tr known labels).2.2) labels).2.2 =
      (ensure_labels tr known labels).2.2 := by
  have h : translated_set tr labels \ (known ∪ (translated_set tr labels \ known)) = ∅ := by
    rw [Finset.sdiff_eq_empty_iff_subset]
    intro x hx
    by_cases hk : x ∈ known
    · exact Finset.mem_union_left _ hk
    · exact Finset.mem_union_right _ (Finset.mem_sdiff.mpr ⟨hx, hk⟩)
  refine ⟨rfl, h, rfl, ?_⟩
  show (known ∪ (translated_set tr labels \ known)) ∪
      (translated_set tr labels \ (known ∪ (translated_set tr labels \ known))) =
    known ∪ (translated_set tr labels \ known)
  rw [h, Finset.union_empty]

/-- Claim C4: `translate_label` first applies the rename table (identity by
default); when the renamed result is the absent value or one of the
case-sensitive sentinels `(none)` and `None` it returns the absent value,
and otherwise it returns the renamed result with every comma removed and
truncated to its first 50 characters. -/
theorem translate_label_cases (tr : List (String × String)) (label : Option String) :
    (rename tr label = none ∨ rename tr label = some "(none)" ∨ rename tr label = some "None" →
      translate_label tr label = none) ∧
    (∀ s, rename tr label = some s → ¬(s = "(none)" ∨ s = "None") →
      translate_label tr label = some (take50 (strip_commas s))) := by
  constructor
  · intro h
    unfold translate_label
    rcases h with h | h | h <;> rw [h] <;> simp
  · intro s hs hne
    unfold translate_label
    rw [hs]
    exact if_neg hne

/-- Witness for C4: the sentinels, a rename-table hit mapping onto a
sentinel, a 60-character name truncated to 50, and comma stripping. -/
theorem translate_label_cases_w :
    translate_label [] (some "(none)") = none ∧
    translate_label [("has-patch", "(none)")] (some "has-patch") = none ∧
    translate_label [] (some (String.mk (List.replicate 60 'x'))) =
      some (String.mk (List.replicate 50 'x')) ∧
    translate_label [] (some "a,b") = some "ab" := by
  refine ⟨(translate_label_cases [] (some "(none)")).1 (by decide),
    (translate_label_cases [("has-patch", "(none)")] (some "has-patch")).1 (by decide),
    ((translate_label_cases [] (some (String.mk (List.replicate 60 'x')))).2
      (String.mk (List.replicate 60 'x')) (by decide) (by decide)).trans (by decide),
    ((translate_label_cases [] (some "a,b")).2 "a,b" rfl (by decide)).trans (by decide)⟩

/-- Claim C5: a change event whose `state` field moves from `new` to
`resolved` classifies to the status transition `closed` (and nothing else
in the status bucket), records no field delta, and - for any
states-as-labels configuration, translation table and event - the `state`
branch of the classifier never records a field delta. -/
theorem state_transition_classification (sal : List String) (tr : List (String × String)) :
    (classify_change sal [] [("state", "new", "resolved")]).status_changes = {"closed"} ∧
    (classify_change sal [] [("state", "new", "resolved")]).field_changes = ∅ ∧
    ∀ (changes : List (String × String × String)),
      ∀ e ∈ (classify_change sal tr changes).field_changes, e.1 ≠ "state" := by
  refine ⟨?_, ?_, ?_⟩
  · simp only [classify_change, List.foldl_cons, List.foldl_nil, classify_step_state_eq,
      step_status_statuses, step_added_status, step_removed_status]
    decide
  · simp only [classify_change, List.foldl_cons, List.foldl_nil, classify_step_state_eq,
      step_status_field, step_added_field, step_removed_field]
    decide
  · intro changes e he
    refine classify_fold_field_state_free sal tr changes Classified.empty ?_ e he
    intro e' he'
    exact absurd he' (Finset.not_mem_empty e')

/-- Witness for C5: the no-state-field-delta conclusion applied to a
concrete event carrying a recorded `title` delta, plus the concrete
`new` to `resolved` classification. -/
theorem state_transition_classification_w :
    (("title", some "t1", some "t2") : String × Option String × Option String).1 ≠ "state" ∧
    (classify_change [] [] [("state", "new", "resolved")]).status_changes = {"closed"} :=
  ⟨(state_transition_classification [] []).2.2 [("title", "t1", "t2")]
      ("title", some "t1", some "t2") (by decide),
    (state_transition_classification [] []).1⟩

/-- Claim C6: an `attachment` field delta short-circuits: the only effect
of processing it is adding `attached file <new>` to the misc bucket - it
contributes no labels and no field delta - a one-field attachment event
classifies to exactly that annotation, and the annotation appears whatever
other fields surround it in the event. -/
theorem attachment_classification (sal : List String) (tr : List (String × String)) :
    (∀ (acc : Classified) (o v : String),
      classify_step sal tr acc ("attachment", o, v) =
        { acc with misc_changes := insert ("attached file " ++ v) acc.misc_changes }) ∧
    (∀ (o v : String), classify_change sal tr [("attachment", o, v)] =
      ⟨∅, ∅, ∅, ∅, {"attached file " ++ v}⟩) ∧
    (∀ (pre post : List (String × String × String)) (o v : String),
      ("attached file " ++ v) ∈
        (classify_change sal tr (pre ++ ("attachment", o, v) :: post)).misc_changes) := by
  refine ⟨classify_step_attachment_eq sal tr, fun o v => ?_, fun pre post o v => ?_⟩
  · simp only [classify_change, List.foldl_cons, List.foldl_nil, classify_step_attachment_eq]
    rfl
  · simp only [classify_change, List.foldl_append, List.foldl_cons]
    refine classify_fold_misc_mono sal tr post _ ?_
    rw [classify_step_attachment_eq]
    exact Finset.mem_insert_self _ _

/-- Claim C7 counterexample: a status value outside
`pending`/`imported`/`failed` is not treated as non-fatal - the polling
code raises the unexpected-status error, the consumer sets abort, and the
remaining queued task is never pushed. -/
theorem unexpected_status_value_is_fatal :
    verify_import_finished 7 [⟨200, "archived", ""⟩] = .raised (.unexpectedStatus "archived") ∧
    verify_import_finished 7 [⟨200, "archived", ""⟩] ≠ .returned ∧
    push_issues false (fun _ => false) 0
        [⟨7, 202, [⟨200, "archived", ""⟩]⟩, ⟨8, 202, [⟨200, "imported", "i/8"⟩]⟩] =
      ⟨[], [7], true, some (.verify (.unexpectedStatus "archived"))⟩ := by decide

/-- Claim C7 (amended: only the transient HTTP 403/404 status-check
responses are non-fatal): a 403 or 404 status-check response - first or
after any number of pending polls - makes the verification return
normally as assumed success and the consumer continue with the next task,
while a status value other than `pending`, `imported` and `failed` raises
a fatal error. -/
theorem transient_status_check_nonfatal (expected : Nat) (code : Nat) (st url : String)
    (rest : List StatusResp) (h : code = 403 ∨ code = 404) (n : Nat) :
    verify_import_finished expected (⟨code, st, url⟩ :: rest) = .returned ∧
    verify_import_finished expected
        (List.replicate n ⟨200, "pending", url⟩ ++ ⟨code, st, url⟩ :: rest) = .returned ∧
    (∀ s, s ≠ "pending" → s ≠ "imported" → s ≠ "failed" →
      verify_import_finished expected (⟨200, s, url⟩ :: rest) =
        .raised (.unexpectedStatus s)) ∧
    (∀ (task_id : Nat) (tasks : List TaskScript) (i : Nat),
      push_issues false (fun _ => false) i
          ((⟨task_id, 202, ⟨code, st, url⟩ :: rest⟩ : TaskScript) :: tasks) =
        ⟨task_id :: (push_issues false (fun _ => false) (i + 1) tasks).imported,
         task_id :: (push_issues false (fun _ => false) (i + 1) tasks).pushed,
         (push_issues false (fun _ => false) (i + 1) tasks).abort,
         (push_issues false (fun _ => false) (i + 1) tasks).error⟩) := by
  have h1 : ∀ id : Nat, verify_import_finished id (⟨code, st, url⟩ :: rest) = .returned := by
    intro id
    rcases h with rfl | rfl <;> simp [verify_import_finished]
  refine ⟨h1 expected, ?_, ?_, ?_⟩
  · induction n with
    | zero => simpa using h1 expected
    | succ n ih => simpa [List.replicate_succ, verify_import_finished] using ih
  · intro s h2 h3 h4
    simp [verify_import_finished, h2, h3, h4]
  · intro task_id tasks i
    have hp : push_github_issue false ⟨task_id, 202, ⟨code, st, url⟩ :: rest⟩ =
        Except.ok () := by
      simp [push_github_issue, h1 task_id]
    simp [push_issues, hp]

/-- Witness for C7 (amended): a 404 response directly and after two pending
polls, a fatal `gone` status, and a consumer that continues after the 404. -/
theorem transient_status_check_nonfatal_w :
    verify_import_finished 42 [⟨404, "x", "u"⟩] = .returned ∧
    verify_import_finished 42
        (List.replicate 2 ⟨200, "pending", "u"⟩ ++ [⟨404, "x", "u"⟩]) = .returned ∧
    verify_import_finished 42 [⟨200, "gone", "u"⟩] = .raised (.unexpectedStatus "gone") ∧
    push_issues false (fun _ => false) 0 [⟨9, 202, [⟨404, "x", "u"⟩]⟩] =
      ⟨[9], [9], false, none⟩ := by
  have h := transient_status_check_nonfatal 42 404 "x" "u" [] (Or.inr rfl) 2
  exact ⟨h.1, h.2.1, h.2.2.1 "gone" (by decide) (by decide) (by decide),
    (h.2.2.2 9 [] 0).trans (by decide)⟩

/-- Claim C8: once a monotone abort signal is set (at step `k`), the
producer enqueues nothing more after observing it and exits normally
without raising, the total number of issues it ever enqueued is at most
`k`, the consumer performs no further pushes (and raises nothing) once it
observes the signal, and the total number of pushes it ever performed is
at most `k`. -/
theorem abort_stops_pipeline (abort_at : Nat → Bool)
    (mono : ∀ i j : Nat, i ≤ j → abort_at i = true → abort_at j = true)
    (k : Nat) (hk : abort_at k = true) :
    (∀ (mc : Bool) (issues : List SrcIssue) (i : Nat), k ≤ i →
      producer_from abort_at mc i issues = ([], .normal)) ∧
    (∀ (mc : Bool) (issues : List SrcIssue),
      (producer_from abort_at mc 0 issues).1.length ≤ k) ∧
    (∀ (dry : Bool) (tasks : List TaskScript) (i : Nat), k ≤ i →
      (push_issues dry abort_at i tasks).pushed = []) ∧
    (∀ (dry : Bool) (tasks : List TaskScript),
      (push_issues dry abort_at 0 tasks).pushed.length ≤ k) := by
  refine ⟨?_, ?_, ?_, ?_⟩
  · intro mc issues i hi
    exact producer_from_stop abort_at mc i (mono k i hi hk) issues
  · intro mc issues
    simpa using producer_from_len abort_at mono k hk mc issues 0
  · intro dry tasks i hi
    exact (push_issues_stop dry abort_at i (mono k i hi hk) tasks).1
  · intro dry tasks
    simpa using push_issues_len dry abort_at mono k hk tasks 0

/-- Witness for C8: an abort signal set from step 2 on stops a producer
resumed at step 5 at once and bounds a three-task consumer run to at most
two pushes. -/
theorem abort_stops_pipeline_w :
    producer_from (fun i => decide (2 ≤ i)) false 5 [⟨9, []⟩] = ([], .normal) ∧
    (push_issues false (fun i => decide (2 ≤ i)) 0
        [⟨1, 202, [⟨404, "", ""⟩]⟩, ⟨2, 202, [⟨404, "", ""⟩]⟩,
         ⟨3, 202, [⟨404, "", ""⟩]⟩]).pushed.length ≤ 2 := by
  have h := abort_stops_pipeline (fun i => decide (2 ≤ i))
    (fun i j hij hi => by
      simp only [decide_eq_true_eq] at hi ⊢
      omega) 2 (by decide)
  exact ⟨h.1 false [⟨9, []⟩] 5 (by omega), h.2.2.2 false _⟩

/-- Claim C9: on a change whose `state` field moves from an open-family to
a closed-family value, the migrate.py classifier called with
`is_last = true` does not emit the `closed` status transition, while with
`is_last = false` it does, and the bbmigrate classifier (which takes no
such argument) emits it regardless. -/
theorem classifier_divergence_on_final_change (sal : List String) (o n : String)
    (ho : o ∈ ["open", "new", "on hold"])
    (hn : n ∈ ["resolved", "duplicate", "wontfix", "closed"]) :
    "closed" ∉ (classify_change_migrate true sal [] [("state", o, n)]).status_changes ∧
    "closed" ∈ (classify_change_migrate false sal [] [("state", o, n)]).status_changes ∧
    "closed" ∈ (classify_change sal [] [("state", o, n)]).status_changes := by
  simp only [classify_change, classify_change_migrate, List.foldl_cons, List.foldl_nil,
    classify_step_state_eq, classify_step_migrate_state_eq,
    step_status_statuses, step_status_migrate_statuses,
    step_added_status, step_removed_status]
  simp only [List.mem_cons, List.not_mem_nil, or_false] at ho hn
  rcases ho with rfl | rfl | rfl <;> rcases hn with rfl | rfl | rfl | rfl <;>
    exact ⟨by decide, by decide, by decide⟩

/-- Witness for C9: the `open` to `resolved` transition. -/
theorem classifier_divergence_on_final_change_w :
    "closed" ∉ (classify_change_migrate true [] [] [("state", "open", "resolved")]).status_changes ∧
    "closed" ∈ (classify_change_migrate false [] [] [("state", "open", "resolved")]).status_changes ∧
    "closed" ∈ (classify_change [] [] [("state", "open", "resolved")]).status_changes :=
  classifier_divergence_on_final_change [] "open" "resolved" (by decide) (by decide)

/-- Claim C10: `convert_change` is declared with four parameters, the
producer calls it with five positional arguments when `--mention-changes`
is set and the issue has change events, so that call raises `TypeError`
before anything is enqueued for the issue and the producer run dies with
nothing enqueued - change-annotation emission can never succeed through
this entry point. -/
theorem mention_changes_type_error (abort_at : Nat → Bool) (i : Nat)
    (issue : SrcIssue) (rest : List SrcIssue)
    (hab : abort_at i = false) (hch : issue.changes ≠ []) :
    convert_change_param_count = 4 ∧ main_convert_change_arg_count = 5 ∧
    producer_from abort_at true i (issue :: rest) = ([], .raisedTypeError) := by
  refine ⟨rfl, rfl, ?_⟩
  simp [producer_from, hab, hch, main_convert_change_arg_count, convert_change_param_count]

/-- Witness for C10: an issue with one change event under
`--mention-changes`. -/
theorem mention_changes_type_error_w :
    producer_from (fun _ => false) true 0 [⟨3, [[("state", "new", "resolved")]]⟩] =
      ([], .raisedTypeError) :=
  (mention_changes_type_error (fun _ => false) 0 ⟨3, [[("state", "new", "resolved")]]⟩ []
    rfl (by decide)).2.2

end BBMigrate
